import Mathlib

/-!
Shallow embedding of the astro-coord-conversion repository
(src/coordinate_parser.py, the regex-based implementation, modelled where a
claim touches it with a `_v1` suffix; and src/python/coordinate_parser.py,
the split-based implementation, modelled under the source function names).
Numeric values are exact rationals; Python float() parsing of plain decimal
tokens and fixed-point formatting with round-half-even are modelled on ℚ.
Exponent/inf/nan float literals and non-ASCII unit markers other than the
degree sign are outside the modelled input space, as are inputs containing
newline characters inside one axis token.
-/

/-- Typed failures of the converter model: every `raise ValueError` in the
source is mapped to a constructor, `range` for the domain-constraint checks
(carrying the offending field name and value), `unparsable` for all parse
and split failures. -/
inductive ConvError
  | range (field : String) (value : ℚ)
  | unparsable (msg : String)
deriving DecidableEq

def isDigitC (c : Char) : Bool := c.isDigit

/-- Python regex `\s`: blank, tab, newline, carriage return, vertical tab, form feed. -/
def isSpaceC (c : Char) : Bool :=
  c == ' ' || c == Char.ofNat 9 || c == Char.ofNat 10 || c == Char.ofNat 13 ||
  c == Char.ofNat 11 || c == Char.ofNat 12

def digitsVal (cs : List Char) : ℕ :=
  cs.foldl (fun a c => 10 * a + (c.toNat - 48)) 0

def stripList (cs : List Char) : List Char :=
  ((cs.dropWhile isSpaceC).reverse.dropWhile isSpaceC).reverse

/-- Python str.strip! -/
def stripStr (s : String) : String := String.mk (stripList s.data)

/-- Python float() on a plain decimal literal without sign: digits, optional
dot, optional fraction digits (at least one digit overall). -/
def parseUnsignedQ (cs : List Char) : Option ℚ :=
  let ip := cs.takeWhile isDigitC
  let r1 := cs.dropWhile isDigitC
  match r1 with
  | [] => if ip.isEmpty then none else some ((digitsVal ip : ℚ))
  | '.' :: r2 =>
      let fp := r2.takeWhile isDigitC
      let r3 := r2.dropWhile isDigitC
      if r3.isEmpty then
        if ip.isEmpty && fp.isEmpty then none
        else some ((digitsVal ip : ℚ) + (digitsVal fp : ℚ) / (10 : ℚ) ^ fp.length)
      else none
  | _ => none

/-- Python float() on a possibly signed decimal literal (surrounding
whitespace stripped, as float() does). -/
def parseFloatQ (s : String) : Option ℚ :=
  match stripList s.data with
  | '+' :: rest => parseUnsignedQ rest
  | '-' :: rest => (parseUnsignedQ rest).map (fun q => -q)
  | cs => parseUnsignedQ cs

def msgFloat : String := "could not convert string to float: "

/-- float(tok) as used by the source: a failed conversion raises ValueError. -/
def ofFloat (s : String) : Except ConvError ℚ :=
  match parseFloatQ s with
  | some v => Except.ok v
  | none => Except.error (ConvError.unparsable (msgFloat ++ s))

/-- Length of the maximal dot-free suffix (count of characters after the
last dot), computed on a reversed character list. -/
def lenToDot : List Char → ℕ
  | [] => 0
  | c :: r => if c = '.' then 0 else lenToDot r + 1

/-- determine_precision from src/python/coordinate_parser.py: number of
characters after the last dot, 0 when there is no dot. -/
def determine_precision (s : String) : ℕ :=
  if '.' ∈ s.data then lenToDot s.data.reverse else 0

/-- round-half-even on ℚ, the semantics of Python round(). -/
def roundHalfEven (q : ℚ) : ℤ :=
  let f := ⌊q⌋
  if q - (f : ℚ) < 1 / 2 then f
  else if (1 : ℚ) / 2 < q - (f : ℚ) then f + 1
  else if f % 2 = 0 then f else f + 1

/-- Python round(v, p) scaled by 10^p, as an integer. -/
def pyRoundScaled (v : ℚ) (p : ℕ) : ℤ := roundHalfEven (v * (10 : ℚ) ^ p)

/-- Python round(v, p). -/
def pyRound (v : ℚ) (p : ℕ) : ℚ := (pyRoundScaled v p : ℚ) / (10 : ℚ) ^ p

def digitChar (n : ℕ) : Char := Char.ofNat (48 + n)

/-- Decimal digits of a natural number, most significant first, with fuel
(fuel larger than the digit count; n + 1 always suffices). -/
def natDigitsAux : ℕ → ℕ → List Char
  | 0, _ => []
  | fuel + 1, n =>
      if n < 10 then [digitChar n]
      else natDigitsAux fuel (n / 10) ++ [digitChar (n % 10)]

def natDigits (n : ℕ) : List Char := natDigitsAux (n + 1) n

/-- f-string 02d padding of a nonnegative integer. -/
def pad2 (n : ℕ) : List Char :=
  let ds := natDigits n
  if ds.length = 1 then '0' :: ds else ds

/-- Fraction digits of r (with r < 10^p) left-padded with zeros to width p. -/
def fracDigits (r p : ℕ) : List Char :=
  let ds := natDigits r
  List.replicate (p - ds.length) '0' ++ ds

/-- Python fixed-point formatting f-string .pf (with +.pf when forceSign):
round half-even at p decimals, then print with exactly p fraction digits. -/
def renderFixed (v : ℚ) (p : ℕ) (forceSign : Bool) : String :=
  let n := pyRoundScaled v p
  let a := n.natAbs
  let signPart : List Char := if v < 0 then ['-'] else if forceSign then ['+'] else []
  if p = 0 then String.mk (signPart ++ natDigits a)
  else String.mk (signPart ++ (natDigits (a / 10 ^ p) ++ '.' :: fracDigits (a % 10 ^ p) p))

-- String literals used by the model (format selectors, field names, messages).

def fmtHmsdms : String := "hmsdms"
def fmtDegrees : String := "degrees"
def fmtCasa : String := "casa"
def fieldHours : String := "Hours"
def fieldMinutes : String := "Minutes"
def fieldSeconds : String := "Seconds"
def fieldRA : String := "RA"
def fieldDec : String := "Dec"
def msgCasaRA : String := "CASA RA must have exactly 3 colon fields"
def msgCasaDec : String := "Invalid CASA dec (should be sign DD.MM.SS(.ss))"
def msgCasaSplit : String := "Expected 2 tokens for CASA input"
def msgHmsSplit : String := "Cannot split hmsdms input"
def msgDegSplit : String := "Cannot split degrees input"
def msgDecParse : String := "Cannot parse as decimal degrees: "
def msgBadOutFmt : String := "Invalid output format specified"
def zeroStr : String := "0"
def plusStr : String := "+"
def minusStr : String := "-"
def colonStr : String := ":"
def spaceStr : String := " "
def dotStr : String := "."
def tabStr : String := "\t"

/-- Unit-marker characters masked out by parse_hms_or_dms: h H d D ° m M
apostrophe s S double-quote. -/
def markerChars : List Char :=
  ['h', 'H', 'd', 'D', Char.ofNat 176, 'm', 'M', Char.ofNat 39, 's', 'S', Char.ofNat 34]

def cleanMarkers (cs : List Char) : List Char :=
  cs.map (fun c => if markerChars.contains c then ' ' else c)

/-- Separators of the regex `[:\s]+`. -/
def hmsTokSep (c : Char) : Bool := c == ':' || isSpaceC c

/-- Separators of the regex `[,\s]+`. -/
def commaWS (c : Char) : Bool := c == ',' || isSpaceC c

/-- Maximal-run tokenisation dropping empty tokens: the model of
`re.split` on a `[...]+` class followed by filtering out empty strings. -/
def tokensByAux (p : Char → Bool) : List Char → List Char → List (List Char)
  | [], acc => if acc.isEmpty then [] else [acc.reverse]
  | c :: rest, acc =>
      if p c then
        if acc.isEmpty then tokensByAux p rest []
        else acc.reverse :: tokensByAux p rest []
      else tokensByAux p rest (c :: acc)

/-- Python `re.split` on a `[...]+` class without filtering: like
`tokensByAux` but a leading or trailing separator run yields an empty
token, as re.split does. -/
def pySplitGo (p : Char → Bool) : List Char → List Char → Bool → List (List Char)
  | [], acc, false => [acc.reverse]
  | [], _, true => [[]]
  | c :: rest, acc, false =>
      if p c then acc.reverse :: pySplitGo p rest [] true
      else pySplitGo p rest (c :: acc) false
  | c :: rest, acc, true =>
      if p c then pySplitGo p rest acc true
      else pySplitGo p rest [c] false

def pySplitRuns (p : Char → Bool) (cs : List Char) : List (List Char) :=
  pySplitGo p cs [] false

/-- Python `str.split(sep)` for a one-character separator: splits at every
occurrence, keeping empty pieces. -/
def splitEveryAux (p : Char → Bool) : List Char → List Char → List (List Char)
  | [], acc => [acc.reverse]
  | c :: rest, acc =>
      if p c then acc.reverse :: splitEveryAux p rest []
      else splitEveryAux p rest (c :: acc)

-- Epoch-marker stripping: model of re.sub(r'\b[Jj]\s*2000\.?0?\b\s*', '', s).

def isWordC (c : Char) : Bool := c.isAlphanum || c == '_'

/-- Word boundary after a word character: next char non-word or end. -/
def bAfterWord : List Char → Bool
  | [] => true
  | c :: _ => !(isWordC c)

/-- Word boundary after a non-word character: next char must be a word char. -/
def bAfterDot : List Char → Bool
  | [] => false
  | c :: _ => isWordC c

/-- The `\.?0?\b` tail of the epoch regex, with the backtracking order of the
regex engine (longest alternative first). -/
def epochAfter2000 : List Char → Option (List Char)
  | '.' :: '0' :: r2 =>
      if bAfterWord r2 then some r2
      else if bAfterDot ('0' :: r2) then some ('0' :: r2)
      else if bAfterWord ('.' :: '0' :: r2) then some ('.' :: '0' :: r2)
      else none
  | '.' :: r2 =>
      if bAfterDot r2 then some r2
      else if bAfterWord ('.' :: r2) then some ('.' :: r2)
      else none
  | r => if bAfterWord r then some r else none

/-- Try to match `[Jj]\s*2000\.?0?\b\s*` at the head of the list; returns the
remainder after the match. -/
def matchEpochAt : List Char → Option (List Char)
  | c :: rest =>
      if c == 'J' || c == 'j' then
        match rest.dropWhile isSpaceC with
        | '2' :: '0' :: '0' :: '0' :: r2 =>
            match epochAfter2000 r2 with
            | some r3 => some (r3.dropWhile isSpaceC)
            | none => none
        | _ => none
      else none
  | [] => none

/-- Scan for all epoch markers (each preceded by a word boundary) and drop
them; fuel equal to the list length always suffices. -/
def removeEpochGo : ℕ → List Char → Bool → List Char
  | 0, cs, _ => cs
  | _ + 1, [], _ => []
  | fuel + 1, c :: rest, prevW =>
      if prevW then c :: removeEpochGo fuel rest (isWordC c)
      else
        match matchEpochAt (c :: rest) with
        | some rem => removeEpochGo fuel rem false
        | none => c :: removeEpochGo fuel rest (isWordC c)

def removeEpoch (s : String) : String :=
  String.mk (removeEpochGo s.data.length s.data false)

-- Sexagesimal arithmetic (src/python/coordinate_parser.py).

/-- Numeric core of hms_to_degrees: range checks, then decimal hours. -/
def hms_to_degreesQ (hh mm ss : ℚ) : Except ConvError ℚ :=
  if ¬(0 ≤ hh ∧ hh < 24) then Except.error (ConvError.range fieldHours hh)
  else if ¬(0 ≤ mm ∧ mm < 60) then Except.error (ConvError.range fieldMinutes mm)
  else if ¬(0 ≤ ss ∧ ss < 60) then Except.error (ConvError.range fieldSeconds ss)
  else Except.ok (hh + mm / 60 + ss / 3600)

/-- hms_to_degrees: float() the three tokens, then the numeric core. -/
def hms_to_degrees (h m s : String) : Except ConvError ℚ :=
  match ofFloat h with
  | Except.error e => Except.error e
  | Except.ok hh =>
    match ofFloat m with
    | Except.error e => Except.error e
    | Except.ok mm =>
      match ofFloat s with
      | Except.error e => Except.error e
      | Except.ok ss => hms_to_degreesQ hh mm ss

/-- Numeric core of dms_to_degrees: minute/second range checks, then the
signed value sign * (dd + mm/60 + ss/3600). -/
def dms_coreQ (sign dd mm ss : ℚ) : Except ConvError ℚ :=
  if ¬(0 ≤ mm ∧ mm < 60) then Except.error (ConvError.range fieldMinutes mm)
  else if ¬(0 ≤ ss ∧ ss < 60) then Except.error (ConvError.range fieldSeconds ss)
  else Except.ok (sign * (dd + mm / 60 + ss / 3600))

/-- Continuation of dms_to_degrees once the sign has been stripped from the
degrees token: float() the remaining tokens (an empty degrees remainder
counts as 0.0), then the numeric core. -/
def dms_after (sign : ℚ) (dRest : List Char) (m s : String) : Except ConvError ℚ :=
  match (if dRest.isEmpty then Except.ok 0 else ofFloat (String.mk dRest)) with
  | Except.error e => Except.error e
  | Except.ok dd =>
    match ofFloat m with
    | Except.error e => Except.error e
    | Except.ok mm =>
      match ofFloat s with
      | Except.error e => Except.error e
      | Except.ok ss => dms_coreQ sign dd mm ss

/-- dms_to_degrees from src/python/coordinate_parser.py: the sign is read
from the leading character of the stripped degrees STRING (so an explicit
minus on a zero degrees field is honoured). -/
def dms_to_degrees (d m s : String) : Except ConvError ℚ :=
  match stripList d.data with
  | '-' :: r => dms_after (-1) r m s
  | '+' :: r => dms_after 1 r m s
  | r => dms_after 1 r m s

-- Token-level parsing (src/python/coordinate_parser.py).

/-- The token list computed inside parse_hms_or_dms: mask unit markers,
strip, split on `[:\s]+`, drop empty tokens. -/
def tokensHmsDms (s : String) : List String :=
  (tokensByAux hmsTokSep (stripList (cleanMarkers s.data)) []).map (fun l => String.mk l)

/-- parse_hms_or_dms: keep the first three tokens, right-padding missing
minute/second fields with "0". -/
def parse_hms_or_dms (coord_str : String) : String × String × String :=
  match tokensHmsDms coord_str with
  | [] => (zeroStr, zeroStr, zeroStr)
  | [a] => (a, zeroStr, zeroStr)
  | [a, b] => (a, b, zeroStr)
  | a :: b :: c :: _ => (a, b, c)

/-- parse_ra_colon_strict: str.split(':') must give exactly 3 fields. -/
def parse_ra_colon_strict (ra_str : String) : Except ConvError (String × String × String) :=
  match (splitEveryAux (fun c => c == ':') ra_str.data []).map (fun l => String.mk l) with
  | [a, b, c] => Except.ok (a, b, c)
  | _ => Except.error (ConvError.unparsable msgCasaRA)

/-- parse_casa_dotted_dec: the anchored regex
`([+-])(\d{1,3})\.(\d{1,2})\.(\d{1,2}(\.\d+)?)` on the stripped string;
returns the signed value and the inferred precision of the seconds field. -/
def parse_casa_dotted_dec (dec_str : String) : Except ConvError (ℚ × ℕ) :=
  match stripList dec_str.data with
  | c :: rest =>
    if c == '+' || c == '-' then
      let sign : ℚ := if c == '-' then -1 else 1
      let d := rest.takeWhile isDigitC
      let r1 := rest.dropWhile isDigitC
      if 1 ≤ d.length ∧ d.length ≤ 3 then
        match r1 with
        | '.' :: r2 =>
          let mmt := r2.takeWhile isDigitC
          let r3 := r2.dropWhile isDigitC
          if 1 ≤ mmt.length ∧ mmt.length ≤ 2 then
            match r3 with
            | '.' :: r4 =>
              let sst := r4.takeWhile isDigitC
              let r5 := r4.dropWhile isDigitC
              if 1 ≤ sst.length ∧ sst.length ≤ 2 then
                match r5 with
                | [] =>
                    Except.ok (sign * ((digitsVal d : ℚ) + (digitsVal mmt : ℚ) / 60 +
                      (digitsVal sst : ℚ) / 3600), 0)
                | '.' :: r6 =>
                    let ft := r6.takeWhile isDigitC
                    let r7 := r6.dropWhile isDigitC
                    if 1 ≤ ft.length ∧ r7.isEmpty then
                      Except.ok (sign * ((digitsVal d : ℚ) + (digitsVal mmt : ℚ) / 60 +
                        ((digitsVal sst : ℚ) + (digitsVal ft : ℚ) / (10 : ℚ) ^ ft.length) / 3600),
                        ft.length)
                    else Except.error (ConvError.unparsable msgCasaDec)
                | _ => Except.error (ConvError.unparsable msgCasaDec)
              else Except.error (ConvError.unparsable msgCasaDec)
            | _ => Except.error (ConvError.unparsable msgCasaDec)
          else Except.error (ConvError.unparsable msgCasaDec)
        | _ => Except.error (ConvError.unparsable msgCasaDec)
      else Except.error (ConvError.unparsable msgCasaDec)
    else Except.error (ConvError.unparsable msgCasaDec)
  | [] => Except.error (ConvError.unparsable msgCasaDec)

/-- parse_to_degrees: convert one axis token to degrees together with its
inferred precision, per declared input format. -/
def parse_to_degrees (coord : String) (is_ra : Bool) (input_format : String) :
    Except ConvError (ℚ × ℕ) :=
  let c := stripStr coord
  if input_format = fmtCasa then
    if is_ra then
      match parse_ra_colon_strict c with
      | Except.error e => Except.error e
      | Except.ok (h, m, s) =>
        let prec := determine_precision s
        match hms_to_degrees h m s with
        | Except.error e => Except.error e
        | Except.ok v => Except.ok (v * 15, prec)
    else parse_casa_dotted_dec c
  else if input_format = fmtHmsdms then
    let t := parse_hms_or_dms c
    let inprec := determine_precision t.2.2
    if is_ra then
      match hms_to_degrees t.1 t.2.1 t.2.2 with
      | Except.error e => Except.error e
      | Except.ok v => Except.ok (v * 15, inprec)
    else
      match dms_to_degrees t.1 t.2.1 t.2.2 with
      | Except.error e => Except.error e
      | Except.ok v => Except.ok (v, inprec)
  else
    if c.data.contains ':' then
      let t := parse_hms_or_dms c
      let inprec := determine_precision t.2.2
      match dms_to_degrees t.1 t.2.1 t.2.2 with
      | Except.error e => Except.error e
      | Except.ok v => Except.ok (v, inprec)
    else
      match parseFloatQ c with
      | some v => Except.ok (v, determine_precision c)
      | none => Except.error (ConvError.unparsable (msgDecParse ++ c.data.asString))

/-- Earliest split of the regex `^(.*?)([+\-]\d.*)$`: the first position
holding a sign character immediately followed by a digit. -/
def signSplit : List Char → Option (List Char × List Char)
  | [] => none
  | c :: rest =>
      if (c == '+' || c == '-') &&
         (match rest with | d :: _ => isDigitC d | [] => false) then
        some ([], c :: rest)
      else
        match signSplit rest with
        | some (a, b) => some (c :: a, b)
        | none => none

/-- split_ra_dec: split the cleaned input into the RA and Dec substrings,
per declared input format. -/
def split_ra_dec (input_str : String) (in_fmt : String) : Except ConvError (String × String) :=
  let cs := stripList input_str.data
  if in_fmt = fmtCasa then
    match (pySplitRuns commaWS cs).map (fun l => String.mk l) with
    | [a, b] => Except.ok (a, b)
    | _ => Except.error (ConvError.unparsable msgCasaSplit)
  else if in_fmt = fmtHmsdms then
    let replaced := cs.map (fun c => if c == ',' then ' ' else c)
    match signSplit replaced with
    | some (g1, g2) => Except.ok (String.mk (stripList g1), String.mk (stripList g2))
    | none =>
      match (pySplitRuns isSpaceC cs).map (fun l => String.mk l) with
      | [a, b] => Except.ok (a, b)
      | _ => Except.error (ConvError.unparsable msgHmsSplit)
  else
    match (pySplitRuns commaWS cs).map (fun l => String.mk l) with
    | [a, b] => Except.ok (a, b)
    | _ =>
      match signSplit cs with
      | some (g1, g2) => Except.ok (String.mk (stripList g1), String.mk (stripList g2))
      | none => Except.error (ConvError.unparsable msgDegSplit)

-- Output formatting (src/python/coordinate_parser.py).

/-- format_degrees: fixed-point rendering, optionally with a forced sign. -/
def format_degrees (value : ℚ) (precision : ℕ) (force_sign : Bool) : String :=
  renderFixed value precision force_sign

/-- two_digit_left: round once to the requested precision, render, then
zero-pad the integer part to two digits by string surgery. -/
def two_digit_left (value : ℚ) (precision : ℕ) : String :=
  let val_rounded := pyRound value precision
  let base := renderFixed val_rounded precision false
  if base.data.contains '.' then
    let ip := base.data.takeWhile (fun c => c != '.')
    let fp := (base.data.dropWhile (fun c => c != '.')).tail
    if ip.length = 1 then String.mk ('0' :: (ip ++ '.' :: fp)) else base
  else
    if base.data.length = 1 then String.mk ('0' :: base.data) else base

/-- Python float modulo (sign following the divisor; divisor positive here). -/
def qmod (a b : ℚ) : ℚ := a - b * (⌊a / b⌋ : ℚ)

/-- degrees_to_hms from src/python/coordinate_parser.py. -/
def degrees_to_hms (deg_val : ℚ) (precision : ℕ) (delimiter : String) : String :=
  let hours := qmod (deg_val / 15) 24
  let hh := (⌊hours⌋).toNat
  let r1 := hours - (hh : ℚ)
  let mm := (⌊r1 * 60⌋).toNat
  let r2 := r1 * 60 - (mm : ℚ)
  let ss := r2 * 60
  let s_str :=
    if precision > 0 then two_digit_left ss precision
    else String.mk (pad2 (roundHalfEven ss).toNat)
  String.mk (pad2 hh) ++ delimiter ++ String.mk (pad2 mm) ++ delimiter ++ s_str

/-- degrees_to_dms from src/python/coordinate_parser.py. -/
def degrees_to_dms (deg_val : ℚ) (precision : ℕ) (delimiter : String) : String :=
  let sgn := if deg_val < 0 then minusStr else plusStr
  let v := |deg_val|
  let dd := (⌊v⌋).toNat
  let r1 := v - (dd : ℚ)
  let mm := (⌊r1 * 60⌋).toNat
  let r2 := r1 * 60 - (mm : ℚ)
  let ss := r2 * 60
  let s_str :=
    if precision > 0 then two_digit_left ss precision
    else String.mk (pad2 (roundHalfEven ss).toNat)
  sgn ++ String.mk (pad2 dd) ++ delimiter ++ String.mk (pad2 mm) ++ delimiter ++ s_str

/-- degrees_to_casa_dec from src/python/coordinate_parser.py. -/
def degrees_to_casa_dec (deg_val : ℚ) (precision : ℕ) : String :=
  let sgn := if deg_val < 0 then minusStr else plusStr
  let v := |deg_val|
  let dd := (⌊v⌋).toNat
  let r1 := v - (dd : ℚ)
  let mm := (⌊r1 * 60⌋).toNat
  let r2 := r1 * 60 - (mm : ℚ)
  let ss := pyRound (r2 * 60) precision
  let s_str :=
    if precision > 0 then renderFixed ss precision false
    else String.mk (pad2 (⌊ss⌋).toNat)
  sgn ++ String.mk (pad2 dd) ++ dotStr ++ String.mk (pad2 mm) ++ dotStr ++ s_str

/-- The final output selection of ra_dec_converter: ra_only is tested first,
then dec_only, else the joined pair. -/
def output_select (ra_only dec_only : Bool) (ra_str dec_str ra_dec_delimiter : String) : String :=
  if ra_only then ra_str
  else if dec_only then dec_str
  else ra_str ++ ra_dec_delimiter ++ dec_str

/-- The range-validation step of ra_dec_converter: RA must lie in [0, 360)
and Dec in [-90, 90], else a range error naming the offending axis. -/
def validate_radec (ra_val dec_val : ℚ) : Except ConvError (ℚ × ℚ) :=
  if ¬(0 ≤ ra_val ∧ ra_val < 360) then Except.error (ConvError.range fieldRA ra_val)
  else if ¬(-90 ≤ dec_val ∧ dec_val ≤ 90) then Except.error (ConvError.range fieldDec dec_val)
  else Except.ok (ra_val, dec_val)

/-- Everything of ra_dec_converter up to (and excluding) the ra_only/dec_only
selection: clean, split, parse both axes, validate ranges, choose final
precisions, format both axes. -/
def convert_core (input_string input_format output_format : String)
    (internal_delimiter : Option String) (ra_precision dec_precision : Option ℕ) :
    Except ConvError (String × String) :=
  let internal := internal_delimiter.getD (if output_format = fmtHmsdms then colonStr else spaceStr)
  let s0 := stripStr input_string
  let s1 := stripStr (removeEpoch s0)
  match split_ra_dec s1 input_format with
  | Except.error e => Except.error e
  | Except.ok (ra_part, dec_part) =>
    match parse_to_degrees ra_part true input_format with
    | Except.error e => Except.error e
    | Except.ok (ra_val, ra_inprec) =>
      match parse_to_degrees dec_part false input_format with
      | Except.error e => Except.error e
      | Except.ok (dec_val, dec_inprec) =>
        match validate_radec ra_val dec_val with
        | Except.error e => Except.error e
        | Except.ok _ =>
          let frp := ra_precision.getD ra_inprec
          let fdp := dec_precision.getD dec_inprec
          let ra_str :=
            if output_format = fmtDegrees then format_degrees ra_val frp false
            else if output_format = fmtHmsdms then degrees_to_hms ra_val frp internal
            else degrees_to_hms ra_val frp colonStr
          let dec_str :=
            if output_format = fmtDegrees then format_degrees dec_val fdp true
            else if output_format = fmtHmsdms then degrees_to_dms dec_val fdp internal
            else degrees_to_casa_dec dec_val fdp
          Except.ok (ra_str, dec_str)

/-- ra_dec_converter from src/python/coordinate_parser.py. -/
def ra_dec_converter (input_string input_format output_format : String)
    (internal_delimiter : Option String) (ra_dec_delimiter : String)
    (ra_only dec_only : Bool) (ra_precision dec_precision : Option ℕ) :
    Except ConvError String :=
  match convert_core input_string input_format output_format internal_delimiter
      ra_precision dec_precision with
  | Except.error e => Except.error e
  | Except.ok (ra_str, dec_str) =>
      Except.ok (output_select ra_only dec_only ra_str dec_str ra_dec_delimiter)

def exOk {α : Type} (e : Except ConvError α) : Bool :=
  match e with
  | Except.ok _ => true
  | Except.error _ => false

-- Pieces of the regex-based implementation (src/coordinate_parser.py) that
-- the claims touch, suffixed _v1.

/-- dms_to_degrees from src/coordinate_parser.py: float() the degrees token
first; the string sign-handling fallback only runs when float() fails, and
the sign is then recomputed from the NUMERIC value (so float of a signed
zero loses the sign). -/
def dms_to_degrees_v1 (degrees minutes seconds : String) : Except ConvError ℚ :=
  match (match parseFloatQ degrees with
         | some v => Except.ok v
         | none =>
           match degrees.data with
           | '+' :: r => ofFloat (String.mk r)
           | '-' :: r =>
             (match ofFloat (String.mk r) with
              | Except.ok v => Except.ok (-v)
              | Except.error e => Except.error e)
           | _ => ofFloat degrees) with
  | Except.error e => Except.error e
  | Except.ok dv =>
    match ofFloat minutes with
    | Except.error e => Except.error e
    | Except.ok mm =>
      match ofFloat seconds with
      | Except.error e => Except.error e
      | Except.ok ss =>
        let sign : ℚ := if dv < 0 then -1 else 1
        let dabs := |dv|
        if ¬(0 ≤ mm ∧ mm < 60) then Except.error (ConvError.range fieldMinutes mm)
        else if ¬(0 ≤ ss ∧ ss < 60) then Except.error (ConvError.range fieldSeconds ss)
        else Except.ok (sign * (dabs + mm / 60 + ss / 3600))

/-- f-string zero-padding to a total width (the 05 in 05.2f). -/
def zeroPadTo (w : ℕ) (s : String) : String :=
  if s.data.length < w then String.mk (List.replicate (w - s.data.length) '0' ++ s.data) else s

/-- degrees_to_hms from src/coordinate_parser.py: seconds are rendered with
f-string 05.pf (total width 5) when precision > 0, and with .0f (no padding
at all) when precision = 0. -/
def degrees_to_hms_v1 (hours : ℚ) (precision : ℕ) (delimiter : String) : String :=
  let hrs := qmod hours 24
  let h := (⌊hrs⌋).toNat
  let r1 := hrs - (h : ℚ)
  let m := (⌊r1 * 60⌋).toNat
  let r2 := r1 * 60 - (m : ℚ)
  let s := r2 * 60
  if precision = 0 then
    String.mk (pad2 h) ++ delimiter ++ String.mk (pad2 m) ++ delimiter ++ renderFixed s 0 false
  else
    String.mk (pad2 h) ++ delimiter ++ String.mk (pad2 m) ++ delimiter ++
      zeroPadTo 5 (renderFixed s precision false)

/-- The default-precision selection of src/coordinate_parser.py (lines
28-36): 7/6 for degrees output, 2/2 for hmsdms output, error otherwise. -/
def v1_set_precisions (output_format : String) (rp dp : Option ℕ) :
    Except ConvError (ℕ × ℕ) :=
  if output_format = fmtDegrees then Except.ok (rp.getD 7, dp.getD 6)
  else if output_format = fmtHmsdms then Except.ok (rp.getD 2, dp.getD 2)
  else Except.error (ConvError.unparsable msgBadOutFmt)

-- Concrete strings used in the claims.

def in12p45 : String := "12 +45"
def inB1 : String := "00:00:00.000 +90:00:00.000"
def inB2 : String := "00:00:00.000 +90:00:00.001"
def inB3 : String := "24:00:00.000 +00:00:00.000"
def inB4 : String := "00:60:00.000 +00:00:00.000"
def inB5 : String := "00:00:60.000 +00:00:00.000"
def inCasaDec : String := "+17.43.31.222"
def inDeg1 : String := "12.5 +10.25"
def inExtra4 : String := "12:30:45:59 +10:00:00"
def inExtra3 : String := "12:30:45 +10:00:00"
def out12p45 : String := "12:00:00.00\t+45:00:00.00"
def outRa12 : String := "12:00:00.00"
def outDeg1 : String := "12.5\t+10.25"
def str12 : String := "12"
def strP45 : String := "+45"
def strM00 : String := "-00"
def str30 : String := "30"
def str12p5 : String := "12.5"
def strRa4 : String := "12:30:45:59"
def outSec60 : String := "00:00:60.00"
def outV1p1 : String := "00:00:008.9"
def outV1p0 : String := "00:00:5"
def outPad1 : String := "08.90"
def outPad0 : String := "05"


def str45 : String := "45"
def str59 : String := "59"

-- Helper lemmas.

lemma exOk_error {α : Type} (e : ConvError) : exOk (Except.error e : Except ConvError α) = false := rfl

lemma exOk_ok {α : Type} (a : α) : exOk (Except.ok a : Except ConvError α) = true := rfl

lemma roundHalfEven_intCast (z : ℤ) : roundHalfEven (z : ℚ) = z := by
  simp only [roundHalfEven, Int.floor_intCast, sub_self]
  norm_num

lemma pyRound_idem (v : ℚ) (p : ℕ) : pyRound (pyRound v p) p = pyRound v p := by
  unfold pyRound pyRoundScaled
  rw [div_mul_cancel₀ _ (pow_ne_zero p (by norm_num : (10 : ℚ) ≠ 0)), roundHalfEven_intCast]

lemma digitChar_ne_dot (k : ℕ) (hk : k < 10) : digitChar k ≠ '.' := by
  interval_cases k <;> decide

lemma natDigitsAux_ne_dot : ∀ fuel n : ℕ, n < fuel → ∀ c ∈ natDigitsAux fuel n, c ≠ '.' := by
  intro fuel
  induction fuel with
  | zero => intro n hn c hc; exact absurd hn (Nat.not_lt_zero n)
  | succ f ih =>
    intro n hn c hc
    simp only [natDigitsAux] at hc
    by_cases h10 : n < 10
    · rw [if_pos h10] at hc
      rw [List.mem_singleton] at hc
      subst hc
      exact digitChar_ne_dot n h10
    · rw [if_neg h10] at hc
      rcases List.mem_append.mp hc with h1 | h2
      · have hlt : n / 10 < f := by
          have : n / 10 < n := Nat.div_lt_self (by omega) (by norm_num)
          omega
        exact ih (n / 10) hlt c h1
      · rw [List.mem_singleton] at h2
        subst h2
        exact digitChar_ne_dot (n % 10) (Nat.mod_lt n (by norm_num))

lemma natDigits_ne_dot (n : ℕ) : ∀ c ∈ natDigits n, c ≠ '.' :=
  natDigitsAux_ne_dot (n + 1) n (Nat.lt_succ_self n)

lemma natDigitsAux_length_le : ∀ fuel n p : ℕ, n < fuel → n < 10 ^ p → 1 ≤ p →
    (natDigitsAux fuel n).length ≤ p := by
  intro fuel
  induction fuel with
  | zero => intro n p hn; exact absurd hn (Nat.not_lt_zero n)
  | succ f ih =>
    intro n p hn hp hp1
    simp only [natDigitsAux]
    by_cases h10 : n < 10
    · rw [if_pos h10]; simpa using hp1
    · rw [if_neg h10, List.length_append, List.length_singleton]
      have hp2 : 2 ≤ p := by
        rcases Nat.lt_or_ge p 2 with hlt | hge
        · interval_cases p
          · rw [pow_one] at hp; omega
        · exact hge
      have hdiv : n / 10 < 10 ^ (p - 1) := by
        rw [Nat.div_lt_iff_lt_mul (by norm_num : 0 < 10)]
        calc n < 10 ^ p := hp
          _ = 10 ^ (p - 1) * 10 := by rw [← pow_succ]; congr 1; omega
      have hfuel : n / 10 < f := by
        have : n / 10 < n := Nat.div_lt_self (by omega) (by norm_num)
        omega
      have := ih (n / 10) (p - 1) hfuel hdiv (by omega)
      omega

lemma natDigits_length_le (n p : ℕ) (hn : n < 10 ^ p) (hp : 1 ≤ p) :
    (natDigits n).length ≤ p :=
  natDigitsAux_length_le (n + 1) n p (Nat.lt_succ_self n) hn hp

lemma fracDigits_length (r p : ℕ) (hr : r < 10 ^ p) (hp : 1 ≤ p) :
    (fracDigits r p).length = p := by
  unfold fracDigits
  rw [List.length_append, List.length_replicate]
  have := natDigits_length_le r p hr hp
  omega

lemma fracDigits_ne_dot (r p : ℕ) : ∀ c ∈ fracDigits r p, c ≠ '.' := by
  intro c hc
  unfold fracDigits at hc
  rcases List.mem_append.mp hc with h1 | h2
  · have := List.eq_of_mem_replicate h1
    subst this; decide
  · exact natDigits_ne_dot r c h2

lemma lenToDot_append (l t : List Char) (hl : ∀ c ∈ l, c ≠ '.') :
    lenToDot (l ++ '.' :: t) = l.length := by
  induction l with
  | nil => simp [lenToDot]
  | cons c l' ih =>
    have hc := hl c (List.mem_cons_self c l')
    simp only [List.cons_append, lenToDot, if_neg hc, List.length_cons, List.append_eq]
    rw [ih (fun x hx => hl x (List.mem_cons_of_mem c hx))]

lemma determine_precision_mk_frac (S D F : List Char) (hF : ∀ c ∈ F, c ≠ '.') :
    determine_precision (String.mk (S ++ (D ++ '.' :: F))) = F.length := by
  unfold determine_precision
  have hmem : '.' ∈ (String.mk (S ++ (D ++ '.' :: F))).data := by
    show '.' ∈ S ++ (D ++ '.' :: F)
    simp
  rw [if_pos hmem]
  show lenToDot (S ++ (D ++ '.' :: F)).reverse = F.length
  have hrev : (S ++ (D ++ '.' :: F)).reverse = F.reverse ++ '.' :: (D.reverse ++ S.reverse) := by
    simp [List.reverse_append, List.append_assoc]
  rw [hrev, lenToDot_append _ _ (fun c hc => hF c (List.mem_reverse.mp hc)), List.length_reverse]

lemma determine_precision_renderFixed (v : ℚ) (p : ℕ) (b : Bool) (hp : 0 < p) :
    determine_precision (renderFixed v p b) = p := by
  simp only [renderFixed]
  rw [if_neg (by omega : ¬ p = 0)]
  rw [determine_precision_mk_frac _ _ _ (fracDigits_ne_dot _ _)]
  exact fracDigits_length _ p (Nat.mod_lt _ (pow_pos (by norm_num) p)) hp

-- Claim theorems.

/-- Claim C1: for inputs whose fields parse, the converter fails with a range
error exactly when a domain constraint is violated.  The unit-level checks
are characterised exactly (hours in [0,24), minutes and seconds in [0,60)
for both axes, RA in [0,360) and Dec in [-90,90] with the upper bound
included only for Dec), and the spec boundary inputs behave as stated:
Dec exactly +90 is accepted, Dec +90:00:00.001, hours 24, minutes 60 and
seconds 60 each fail with the corresponding range error. -/
theorem claim_C1_range_error_iff :
    (∀ ra_val dec_val : ℚ,
      exOk (validate_radec ra_val dec_val) = true ↔
        (0 ≤ ra_val ∧ ra_val < 360 ∧ -90 ≤ dec_val ∧ dec_val ≤ 90))
    ∧ (∀ h m s : ℚ,
      exOk (hms_to_degreesQ h m s) = true ↔
        ((0 ≤ h ∧ h < 24) ∧ (0 ≤ m ∧ m < 60) ∧ (0 ≤ s ∧ s < 60)))
    ∧ (∀ sign dd mm ss : ℚ,
      exOk (dms_coreQ sign dd mm ss) = true ↔
        ((0 ≤ mm ∧ mm < 60) ∧ (0 ≤ ss ∧ ss < 60)))
    ∧ exOk (ra_dec_converter inB1 fmtHmsdms fmtHmsdms none tabStr false false none none) = true
    ∧ ra_dec_converter inB2 fmtHmsdms fmtHmsdms none tabStr false false none none
        = Except.error (ConvError.range fieldDec (90 + 1 / 3600000))
    ∧ ra_dec_converter inB3 fmtHmsdms fmtHmsdms none tabStr false false none none
        = Except.error (ConvError.range fieldHours 24)
    ∧ ra_dec_converter inB4 fmtHmsdms fmtHmsdms none tabStr false false none none
        = Except.error (ConvError.range fieldMinutes 60)
    ∧ ra_dec_converter inB5 fmtHmsdms fmtHmsdms none tabStr false false none none
        = Except.error (ConvError.range fieldSeconds 60) := by
  refine ⟨?_, ?_, ?_, ?_, ?_, ?_, ?_, ?_⟩
  · intro ra_val dec_val
    unfold validate_radec
    split_ifs with h1 h2
    · rw [exOk_ok]
      exact iff_of_true rfl ⟨h1.1, h1.2, h2.1, h2.2⟩
    · rw [exOk_error]
      exact iff_of_false (by simp) (fun hr => h2 ⟨hr.2.2.1, hr.2.2.2⟩)
    · rw [exOk_error]
      exact iff_of_false (by simp) (fun hr => h1 ⟨hr.1, hr.2.1⟩)
  · intro h m s
    unfold hms_to_degreesQ
    split_ifs with h1 h2 h3
    · rw [exOk_ok]
      exact iff_of_true rfl ⟨h1, h2, h3⟩
    · rw [exOk_error]
      exact iff_of_false (by simp) (fun hr => h3 hr.2.2)
    · rw [exOk_error]
      exact iff_of_false (by simp) (fun hr => h2 hr.2.1)
    · rw [exOk_error]
      exact iff_of_false (by simp) (fun hr => h1 hr.1)
  · intro sign dd mm ss
    unfold dms_coreQ
    split_ifs with h1 h2
    · rw [exOk_ok]
      exact iff_of_true rfl ⟨h1, h2⟩
    · rw [exOk_error]
      exact iff_of_false (by simp) (fun hr => h2 hr.2)
    · rw [exOk_error]
      exact iff_of_false (by simp) (fun hr => h1 hr.1)
  · with_unfolding_all rfl
  · with_unfolding_all rfl
  · with_unfolding_all rfl
  · with_unfolding_all rfl
  · with_unfolding_all rfl

/-- Claim C2: the literal +17.43.31.222 parses under the dotted-CASA
declination grammar as 17 degrees, 43 minutes, 31.222 seconds (with inferred
precision 3), and the same literal under the decimal grammar fails. -/
theorem claim_C2_dotted_casa :
    parse_casa_dotted_dec inCasaDec = Except.ok (17 + 43 / 60 + (31222 / 1000) / 3600, 3)
    ∧ parse_to_degrees inCasaDec false fmtDegrees
        = Except.error (ConvError.unparsable (msgDecParse ++ inCasaDec)) :=
  ⟨by with_unfolding_all rfl, by with_unfolding_all rfl⟩

/-- Claim C3: elided trailing minute and second fields are filled with "0"
in parse_hms_or_dms (for any token string whose tokenisation has one or two
fields), and the input 12 +45 under the sexagesimal grammar resolves without
error to RA 180 degrees (12h) and Dec +45 degrees, rendering as
12:00:00.00 tab +45:00:00.00. -/
theorem claim_C3_elision_fill :
    (∀ (s a : String), tokensHmsDms s = [a] → parse_hms_or_dms s = (a, zeroStr, zeroStr))
    ∧ (∀ (s a b : String), tokensHmsDms s = [a, b] → parse_hms_or_dms s = (a, b, zeroStr))
    ∧ parse_to_degrees str12 true fmtHmsdms = Except.ok (180, 0)
    ∧ parse_to_degrees strP45 false fmtHmsdms = Except.ok (45, 0)
    ∧ ra_dec_converter in12p45 fmtHmsdms fmtHmsdms none tabStr false false (some 2) (some 2)
        = Except.ok out12p45 := by
  refine ⟨?_, ?_, ?_, ?_, ?_⟩
  · intro s a h
    unfold parse_hms_or_dms
    rw [h]
  · intro s a b h
    unfold parse_hms_or_dms
    rw [h]
  · with_unfolding_all rfl
  · with_unfolding_all rfl
  · with_unfolding_all rfl

/-- Witness for claim C3 at the concrete token 12. -/
theorem claim_C3_elision_fill_witness :
    parse_hms_or_dms str12 = (str12, zeroStr, zeroStr) :=
  claim_C3_elision_fill.1 str12 str12 (by with_unfolding_all rfl)

/-- Claim C4: hms_to_degrees checks hours in [0,24), minutes in [0,60),
seconds in [0,60) in that order, fails with a range error naming the first
offending field, and otherwise returns exactly h + m/60 + s/3600. -/
theorem claim_C4_hms_exact (h m s : ℚ) :
    ((0 ≤ h ∧ h < 24) → (0 ≤ m ∧ m < 60) → (0 ≤ s ∧ s < 60) →
        hms_to_degreesQ h m s = Except.ok (h + m / 60 + s / 3600))
    ∧ (¬(0 ≤ h ∧ h < 24) → hms_to_degreesQ h m s = Except.error (ConvError.range fieldHours h))
    ∧ ((0 ≤ h ∧ h < 24) → ¬(0 ≤ m ∧ m < 60) →
        hms_to_degreesQ h m s = Except.error (ConvError.range fieldMinutes m))
    ∧ ((0 ≤ h ∧ h < 24) → (0 ≤ m ∧ m < 60) → ¬(0 ≤ s ∧ s < 60) →
        hms_to_degreesQ h m s = Except.error (ConvError.range fieldSeconds s)) := by
  refine ⟨fun h1 h2 h3 => ?_, fun h1 => ?_, fun h1 h2 => ?_, fun h1 h2 h3 => ?_⟩ <;>
    unfold hms_to_degreesQ <;> split_ifs <;> rfl

/-- Witness for claim C4 at 12h 30m 45s. -/
theorem claim_C4_hms_exact_witness :
    hms_to_degreesQ 12 30 45 = Except.ok (12 + 30 / 60 + 45 / 3600) :=
  (claim_C4_hms_exact 12 30 45).1 (by norm_num) (by norm_num) (by norm_num)

/-- Claim C5 (code bug in src/coordinate_parser.py): on degrees field -00
with 30 minutes and 0 seconds, the split-based dms_to_degrees honours the
explicit minus sign and returns -0.5, while the regex-based implementation
(dms_to_degrees_v1) loses the sign of the signed zero and returns +0.5. -/
theorem claim_C5_signed_zero_dms :
    dms_to_degrees strM00 str30 zeroStr = Except.ok (-(1 / 2))
    ∧ dms_to_degrees_v1 strM00 str30 zeroStr = Except.ok (1 / 2) :=
  ⟨by with_unfolding_all rfl, by with_unfolding_all rfl⟩

/-- Claim C6 counterexample: a seconds value of 59.996 (the hours value
14999/60000 degrees is 0h 0m 59.996s) at precision 2 renders as 60.00 next
to the unchanged minute field 00, so the rendered seconds field CAN read as
60, contrary to the claim. -/
theorem claim_C6_counterexample :
    degrees_to_hms (14999 / 60000) 2 colonStr = outSec60 := by
  with_unfolding_all rfl

/-- Claim C6 amended: the seconds field is rounded to the requested
precision exactly once, before the display padding split — rendering an
already-rounded value produces the identical string — but that single
rounding can carry the field to 60 (see the counterexample). -/
theorem claim_C6_amended_round_once (v : ℚ) (p : ℕ) :
    two_digit_left v p = two_digit_left (pyRound v p) p := by
  unfold two_digit_left
  rw [pyRound_idem]

/-- Claim C7 (code bug in src/coordinate_parser.py): two_digit_left renders
8.9 at precision 2 as 08.90 and 5 at precision 0 as 05 (two digits before
the decimal point, as the spec requires), but degrees_to_hms of the
regex-based implementation pads the whole seconds string to width 5, giving
008.9 at precision 1, and applies no padding at all at precision 0, giving
a bare 5. -/
theorem claim_C7_padding_bug :
    two_digit_left (89 / 10) 2 = outPad1
    ∧ two_digit_left 5 0 = outPad0
    ∧ degrees_to_hms_v1 (89 / 36000) 1 colonStr = outV1p1
    ∧ degrees_to_hms_v1 (1 / 720) 0 colonStr = outV1p0 :=
  ⟨by with_unfolding_all rfl, by with_unfolding_all rfl,
   by with_unfolding_all rfl, by with_unfolding_all rfl⟩

/-- Claim C8 counterexample: calling the converter with BOTH ra_only and
dec_only set succeeds and returns the RA-only string — no configuration
error is raised. -/
theorem claim_C8_counterexample :
    ra_dec_converter in12p45 fmtHmsdms fmtHmsdms none tabStr true true (some 2) (some 2)
      = Except.ok outRa12 := by
  with_unfolding_all rfl

/-- Claim C8 amended: there is no configuration error; ra_only takes
precedence, so setting both flags behaves exactly like setting ra_only
alone, for every input and configuration. -/
theorem claim_C8_amended_ra_only_precedence (input_string input_format output_format : String)
    (internal_delimiter : Option String) (ra_dec_delimiter : String)
    (ra_precision dec_precision : Option ℕ) :
    ra_dec_converter input_string input_format output_format internal_delimiter
        ra_dec_delimiter true true ra_precision dec_precision
      = ra_dec_converter input_string input_format output_format internal_delimiter
        ra_dec_delimiter true false ra_precision dec_precision := by
  rcases hc : convert_core input_string input_format output_format internal_delimiter
      ra_precision dec_precision with e | ⟨a, b⟩ <;>
    simp [ra_dec_converter, hc, output_select]

/-- Claim C9 counterexample: under the split-based implementation, decimal
output with no precision override uses the INPUT-derived precision, not 7/6:
the input 12.5 +10.25 renders as 12.5 tab +10.25, whose RA part carries one
fractional digit. -/
theorem claim_C9_counterexample :
    ra_dec_converter inDeg1 fmtDegrees fmtDegrees none tabStr false false none none
      = Except.ok outDeg1
    ∧ determine_precision str12p5 = 1 :=
  ⟨by with_unfolding_all rfl, by with_unfolding_all rfl⟩

/-- Claim C9 amended: the regex-based implementation defaults unset
precisions under degrees output to 7 (RA) and 6 (Dec), and its fixed-point
rendering then carries exactly 7 and 6 fractional digits for every value;
the split-based implementation instead uses the input-derived precision
(see the counterexample). -/
theorem claim_C9_amended_v1_defaults :
    v1_set_precisions fmtDegrees none none = Except.ok (7, 6)
    ∧ (∀ ra dec : ℚ, determine_precision (format_degrees ra 7 false) = 7
        ∧ determine_precision (format_degrees dec 6 true) = 6) := by
  refine ⟨by with_unfolding_all rfl, fun ra dec => ⟨?_, ?_⟩⟩ <;>
    exact determine_precision_renderFixed _ _ _ (by norm_num)

/-- Claim C10: an axis token that tokenises into four or more fields does
not fail: parse_hms_or_dms keeps the first three fields and discards the
rest, and consequently the converter gives identical results on
12:30:45:59 +10:00:00 and 12:30:45 +10:00:00. -/
theorem claim_C10_extra_fields :
    (∀ (s a b c : String) (rest : List String),
        tokensHmsDms s = a :: b :: c :: rest → parse_hms_or_dms s = (a, b, c))
    ∧ ra_dec_converter inExtra4 fmtHmsdms fmtDegrees none tabStr false false none none
        = ra_dec_converter inExtra3 fmtHmsdms fmtDegrees none tabStr false false none none := by
  constructor
  · intro s a b c rest h
    unfold parse_hms_or_dms
    rw [h]
  · with_unfolding_all rfl

/-- Witness for claim C10 at the concrete token 12:30:45:59. -/
theorem claim_C10_extra_fields_witness :
    parse_hms_or_dms strRa4 = (str12, str30, str45) :=
  claim_C10_extra_fields.1 strRa4 str12 str30 str45 [str59] (by with_unfolding_all rfl)
